import Mathlib

/-!
Shallow embedding of the service worker `src/sw.js` of the ramadanweb
repository: the cache-store semantics used by the worker, the precache
install step, the activate garbage collection, the fetch router, and the
three caching strategies (cache-first, network-first,
stale-while-revalidate).  Machine state is an association list of
generations (named caches), each an association list from request URL to
stored response.  Network fetch is a function from URL to
`Option Response`, where `none` models a transport-level failure
(a rejected fetch promise) and `some r` a completed HTTP exchange with
status `r.status`.
-/

/-- An HTTP response as the worker observes it: a status code and a body. -/
structure Response where
  status : Nat
  body : String
  deriving DecidableEq, Repr

/-- Mirrors the `response.ok` getter: the status lies in 200..299. -/
def Response.ok (r : Response) : Bool :=
  decide (200 ≤ r.status) && decide (r.status ≤ 299)

/-- The synthetic response `new Response('Offline', { status: 503 })`
built by the strategies on transport failure. -/
def offlineResponse : Response :=
  { status := 503, body := "Offline" }

/-- One named cache: an association list from request URL to response.
Lookup takes the first binding for a key. -/
abbrev Cache := List (String × Response)

/-- The cache storage: an association list from generation name to cache,
in creation order, mirroring the browser `caches` object. -/
abbrev CacheStorage := List (String × Cache)

/-- `CACHE_NAME` from `src/sw.js` line 6. -/
def CACHE_NAME : String := "hadiye-v1.0.0"

/-- `OFFLINE_URL` from `src/sw.js` line 7. -/
def OFFLINE_URL : String := "/offline.html"

/-- `PRECACHE_ASSETS` from `src/sw.js` lines 10..30. -/
def PRECACHE_ASSETS : List String :=
  ["/",
   "/index.html",
   "/manifest.json",
   "/css/index.css",
   "/css/cibro.css",
   "/css/quran.css",
   "/css/tasbiix.css",
   "/js/main.js",
   "/js/modules/ramadan.js",
   "/js/modules/cibro.js",
   "/js/modules/quran.js",
   "/js/modules/tasbiix.js",
   "/js/modules/animations.js",
   "/data/surahs.json",
   "/data/reflections.json",
   "https://cdnjs.cloudflare.com/ajax/libs/gsap/3.12.5/gsap.min.js",
   "https://cdnjs.cloudflare.com/ajax/libs/gsap/3.12.5/ScrollTrigger.min.js",
   "https://fonts.googleapis.com/css2?family=Amiri+Quran&family=Scheherazade+New:wght@400;700&family=Inter:wght@300;400;500;600&display=swap"]

/-- `cache.match(key)` on a single cache: first binding for the key. -/
def cacheMatch : Cache → String → Option Response
  | [], _ => none
  | e :: c, key => if e.1 = key then some e.2 else cacheMatch c key

/-- Whether a cache holds some binding for a key. -/
def hasKey : Cache → String → Bool
  | [], _ => false
  | e :: c, key => if e.1 = key then true else hasKey c key

/-- `cache.put(key, r)`: overwrite the binding in place if the key is
present, otherwise append a new binding. -/
def cachePut (c : Cache) (key : String) (r : Response) : Cache :=
  if hasKey c key then c.map (fun e => if e.1 = key then (key, r) else e)
  else c ++ [(key, r)]

/-- Whether the storage holds a generation with the given name. -/
def hasGen : CacheStorage → String → Bool
  | [], _ => false
  | g :: s, name => if g.1 = name then true else hasGen s name

/-- The contents of the named generation (empty if absent). -/
def getCache : CacheStorage → String → Cache
  | [], _ => []
  | g :: s, name => if g.1 = name then g.2 else getCache s name

/-- `caches.open(name)`: create the generation (empty) if absent;
idempotent otherwise. -/
def cachesOpen (s : CacheStorage) (name : String) : CacheStorage :=
  if hasGen s name then s else s ++ [(name, [])]

/-- Apply a function to the contents of the named generation. -/
def storageUpdate (s : CacheStorage) (name : String) (f : Cache → Cache) :
    CacheStorage :=
  s.map (fun g => if g.1 = name then (g.1, f g.2) else g)

/-- `cache.put` through the storage, on the named generation. -/
def storagePut (s : CacheStorage) (name key : String) (r : Response) :
    CacheStorage :=
  storageUpdate s name (fun c => cachePut c key r)

/-- `caches.keys()`: the generation names in creation order. -/
def cachesKeys (s : CacheStorage) : List String :=
  s.map Prod.fst

/-- `caches.match(key)`: search every generation in creation order and
return the first hit, as the global `caches.match` does. -/
def cachesMatch : CacheStorage → String → Option Response
  | [], _ => none
  | g :: s, key =>
    match cacheMatch g.2 key with
    | some r => some r
    | none => cachesMatch s key

/-- The network-fetch capability: `none` is a transport failure. -/
abbrev Network := String → Option Response

/-- `cache.addAll(urls)` fetch phase: fetch every URL; fail (return
`none`) if any fetch fails at the transport level or completes with a
non-ok status, otherwise return the list of fetched entries in order. -/
def fetchAllOk (net : Network) : List String → Option (List (String × Response))
  | [] => some []
  | u :: us =>
    match net u, fetchAllOk net us with
    | some r, some rest => if r.ok then some ((u, r) :: rest) else none
    | _, _ => none

/-- Store a list of fetched entries into a cache, in order. -/
def putAll (c : Cache) (es : List (String × Response)) : Cache :=
  es.foldl (fun c e => cachePut c e.1 e.2) c

/-- The install event handler (`src/sw.js` lines 33..50):
`caches.open(CACHE_NAME)` — which creates the generation — then
`cache.addAll(PRECACHE_ASSETS)`; a rejection of `addAll` is swallowed by
the final `.catch`, leaving the state as it was after the `open`. -/
def install (s : CacheStorage) (net : Network) : CacheStorage :=
  let s1 := cachesOpen s CACHE_NAME
  match fetchAllOk net PRECACHE_ASSETS with
  | some entries => storageUpdate s1 CACHE_NAME (fun c => putAll c entries)
  | none => s1

/-- The activate event handler (`src/sw.js` lines 53..73): delete every
generation whose name differs from `CACHE_NAME`. -/
def activate (s : CacheStorage) : CacheStorage :=
  s.filter (fun g => g.1 == CACHE_NAME)

/-- A cache-store operation, recorded so that frame properties (which
generations a strategy touches) can be stated over a trace. -/
inductive CacheOp
  | openGen (name : String)
  | matchAll (key : String)
  | matchIn (name key : String)
  | put (name key : String)
  | deleteGen (name : String)
  deriving DecidableEq, Repr

/-- What a strategy produces: the response handed to the caller (`none`
models resolving with `undefined`), the cache storage after all writes
(including the settled background write of stale-while-revalidate), the
cache operations performed, and the URLs fetched from the network. -/
structure StratResult where
  response : Option Response
  state : CacheStorage
  ops : List CacheOp
  netCalls : List String
  deriving DecidableEq, Repr

/-- An intercepted request, with the URL already parsed the way
`new URL(request.url)` exposes it. -/
structure Request where
  method : String
  protocol : String
  hostname : String
  pathname : String
  url : String
  mode : String
  deriving DecidableEq, Repr

/-- `cacheFirst` (`src/sw.js` lines 112..129): global `caches.match`
first; on a miss, fetch, store a clone only when `response.ok`, and on a
transport failure return the synthetic 503. -/
def cacheFirst (s : CacheStorage) (net : Network) (req : Request) :
    StratResult :=
  match cachesMatch s req.url with
  | some cached => ⟨some cached, s, [CacheOp.matchAll req.url], []⟩
  | none =>
    match net req.url with
    | some response =>
      if response.ok then
        ⟨some response,
         storagePut (cachesOpen s CACHE_NAME) CACHE_NAME req.url response,
         [CacheOp.matchAll req.url, CacheOp.openGen CACHE_NAME,
          CacheOp.put CACHE_NAME req.url],
         [req.url]⟩
      else ⟨some response, s, [CacheOp.matchAll req.url], [req.url]⟩
    | none => ⟨some offlineResponse, s, [CacheOp.matchAll req.url], [req.url]⟩

/-- `networkFirst` (`src/sw.js` lines 135..160): fetch first, store a
clone only when `response.ok`; on transport failure fall back to the
global `caches.match`, then for navigations to the offline page, then to
the bare result of `caches.match('/')` (possibly `undefined`), and to
the synthetic 503 only for non-navigations. -/
def networkFirst (s : CacheStorage) (net : Network) (req : Request) :
    StratResult :=
  match net req.url with
  | some response =>
    if response.ok then
      ⟨some response,
       storagePut (cachesOpen s CACHE_NAME) CACHE_NAME req.url response,
       [CacheOp.openGen CACHE_NAME, CacheOp.put CACHE_NAME req.url],
       [req.url]⟩
    else ⟨some response, s, [], [req.url]⟩
  | none =>
    match cachesMatch s req.url with
    | some cached => ⟨some cached, s, [CacheOp.matchAll req.url], [req.url]⟩
    | none =>
      if req.mode = "navigate" then
        match cachesMatch s OFFLINE_URL with
        | some page =>
          ⟨some page, s,
           [CacheOp.matchAll req.url, CacheOp.matchAll OFFLINE_URL],
           [req.url]⟩
        | none =>
          ⟨cachesMatch s "/", s,
           [CacheOp.matchAll req.url, CacheOp.matchAll OFFLINE_URL,
            CacheOp.matchAll "/"],
           [req.url]⟩
      else ⟨some offlineResponse, s, [CacheOp.matchAll req.url], [req.url]⟩

/-- `staleWhileRevalidate` (`src/sw.js` lines 166..182): open the active
generation, read the cached entry from it, start a fetch whose `.then`
stores the response only when `response.ok` and whose `.catch` yields the
previously read `cached` value, and resolve with
`cached || networkPromise`.  The state field reflects the storage after
the background fetch has settled. -/
def staleWhileRevalidate (s : CacheStorage) (net : Network) (req : Request) :
    StratResult :=
  let s1 := cachesOpen s CACHE_NAME
  let cached := cacheMatch (getCache s1 CACHE_NAME) req.url
  let s2 :=
    match net req.url with
    | some response =>
      if response.ok then storagePut s1 CACHE_NAME req.url response else s1
    | none => s1
  let result :=
    match cached with
    | some c => some c
    | none =>
      match net req.url with
      | some response => some response
      | none => cached
  let putOps :=
    match net req.url with
    | some response =>
      if response.ok then [CacheOp.put CACHE_NAME req.url] else []
    | none => []
  ⟨result, s2,
   [CacheOp.openGen CACHE_NAME, CacheOp.matchIn CACHE_NAME req.url] ++ putOps,
   [req.url]⟩

/-- `s.startsWith(pre)` on the character sequences of the strings. -/
def strStartsWith (s pre : String) : Bool :=
  pre.toList.isPrefixOf s.toList

/-- `s.endsWith(suf)` (the anchored extension test) on the character
sequences of the strings. -/
def strEndsWith (s suf : String) : Bool :=
  suf.toList.isSuffixOf s.toList

/-- Substring test on character lists, used for `hostname.includes`. -/
def containsFrom (pat : List Char) : List Char → Bool
  | [] => pat.isEmpty
  | c :: rest => pat.isPrefixOf (c :: rest) || containsFrom pat rest

/-- `s.includes(pat)` on strings. -/
def strIncludes (s pat : String) : Bool :=
  containsFrom pat.toList s.toList

/-- What the fetch event handler produces: whether `respondWith` was
called, and if so the strategy result. -/
structure FetchResult where
  intercepted : Bool
  response : Option Response
  state : CacheStorage
  ops : List CacheOp
  netCalls : List String
  deriving DecidableEq, Repr

/-- Lift a strategy result into a fetch result. -/
def ofStrat (r : StratResult) : FetchResult :=
  ⟨true, r.response, r.state, r.ops, r.netCalls⟩

/-- The fetch event handler (`src/sw.js` lines 76..106): bypass non-GET
methods and non-http protocols, then route by path prefix, extension and
hostname to a strategy. -/
def handleFetch (s : CacheStorage) (net : Network) (req : Request) :
    FetchResult :=
  if req.method ≠ "GET" then ⟨false, none, s, [], []⟩
  else if strStartsWith req.protocol "http" = false then ⟨false, none, s, [], []⟩
  else if strStartsWith req.pathname "/data/" then ofStrat (cacheFirst s net req)
  else if strEndsWith req.pathname ".js" || strEndsWith req.pathname ".css" then
    ofStrat (staleWhileRevalidate s net req)
  else if strIncludes req.hostname "fonts.googleapis.com" ||
      strIncludes req.hostname "fonts.gstatic.com" ||
      strIncludes req.hostname "cdnjs.cloudflare.com" then
    ofStrat (cacheFirst s net req)
  else ofStrat (networkFirst s net req)

/-- Every binding for key `k` in the cache carries the response `r`. -/
def allKey (c : Cache) (k : String) (r : Response) : Prop :=
  ∀ e ∈ c, e.1 = k → e = (k, r)

/-- A network that fails every request at the transport level. -/
def netFailAll : Network := fun _ => none

/-- A network that answers every request with HTTP 404. -/
def net404 : Network := fun _ => some { status := 404, body := "not found" }

/-- A network that answers every request with HTTP 500. -/
def net500 : Network := fun _ => some { status := 500, body := "server error" }

/-- A network that answers every request with HTTP 200. -/
def netOk : Network := fun _ => some { status := 200, body := "fresh" }

/-- A navigation request for a document. -/
def navReq : Request :=
  { method := "GET", protocol := "https:", hostname := "example.com",
    pathname := "/page", url := "https://example.com/page",
    mode := "navigate" }

/-- A GET request under the reserved data prefix. -/
def dataReq : Request :=
  { method := "GET", protocol := "https:", hostname := "example.com",
    pathname := "/data/surahs.json",
    url := "https://example.com/data/surahs.json", mode := "cors" }

/-- A GET request for a script asset. -/
def jsReq : Request :=
  { method := "GET", protocol := "https:", hostname := "example.com",
    pathname := "/js/main.js", url := "https://example.com/js/main.js",
    mode := "cors" }

/-- A POST request, which the fetch handler must not intercept. -/
def postReq : Request :=
  { method := "POST", protocol := "https:", hostname := "example.com",
    pathname := "/api", url := "https://example.com/api", mode := "cors" }

/-- An extension-scheme request, which the fetch handler must not
intercept. -/
def extReq : Request :=
  { method := "GET", protocol := "chrome-extension:", hostname := "abc",
    pathname := "/x", url := "chrome-extension://abc/x", mode := "cors" }

/-- A storage holding only a superseded generation. -/
def oldGenState : CacheStorage :=
  [("hadiye-v0.9.0", [("/", { status := 200, body := "old" })])]

/-- A storage holding a superseded generation and the current one. -/
def twoGenState : CacheStorage :=
  [("hadiye-v0.9.0", []),
   (CACHE_NAME, [("/", { status := 200, body := "home" })])]

/-- A storage whose active generation is empty while a superseded
generation still holds an entry for the data request. -/
def strayEntryState : CacheStorage :=
  [(CACHE_NAME, []),
   ("hadiye-v0.9.0",
    [("https://example.com/data/surahs.json",
      { status := 200, body := "stale" })])]

/-- A storage whose active generation holds the data request. -/
def cachedDataState : CacheStorage :=
  [(CACHE_NAME,
    [("https://example.com/data/surahs.json",
      { status := 200, body := "cached" })])]

/-- A storage whose active generation holds the offline page. -/
def offlineCachedState : CacheStorage :=
  [(CACHE_NAME, [(OFFLINE_URL, { status := 200, body := "offline page" })])]

/-- A storage whose active generation holds the script asset. -/
def cachedJsState : CacheStorage :=
  [(CACHE_NAME,
    [("https://example.com/js/main.js",
      { status := 200, body := "cached js" })])]

/-! ### Basic store lemmas -/

theorem getCache_append_empty (s : CacheStorage) (n name : String) :
    getCache (s ++ [(n, [])]) name = getCache s name := by
  induction s with
  | nil => simp [getCache]
  | cons g rest ih =>
    simp only [List.cons_append, getCache]
    split <;> simp [ih]

theorem getCache_cachesOpen (s : CacheStorage) (n name : String) :
    getCache (cachesOpen s n) name = getCache s name := by
  unfold cachesOpen
  split
  · rfl
  · exact getCache_append_empty s n name

theorem hasGen_append_empty (s : CacheStorage) (n : String) :
    hasGen (s ++ [(n, [])]) n = true := by
  induction s with
  | nil => simp [hasGen]
  | cons g rest ih =>
    simp only [List.cons_append, hasGen]
    split <;> simp [ih]

theorem hasGen_cachesOpen_self (s : CacheStorage) (n : String) :
    hasGen (cachesOpen s n) n = true := by
  unfold cachesOpen
  split
  · assumption
  · exact hasGen_append_empty s n

theorem cachesOpen_idem (s : CacheStorage) (n : String) :
    cachesOpen (cachesOpen s n) n = cachesOpen s n := by
  by_cases h : hasGen s n = true
  · simp [cachesOpen, h]
  · simp [cachesOpen, h, hasGen_append_empty]

theorem hasGen_storageUpdate (s : CacheStorage) (n m : String) (f : Cache → Cache) :
    hasGen (storageUpdate s n f) m = hasGen s m := by
  induction s with
  | nil => rfl
  | cons g rest ih =>
    simp only [storageUpdate, List.map_cons, hasGen] at *
    by_cases h : g.1 = n
    · simp [h, ih, storageUpdate]
    · simp [h, ih, storageUpdate]

theorem getCache_storageUpdate_ne (s : CacheStorage) (n name : String)
    (f : Cache → Cache) (h : name ≠ n) :
    getCache (storageUpdate s n f) name = getCache s name := by
  have hne : ¬ (n = name) := fun hc => h hc.symm
  induction s with
  | nil => rfl
  | cons g rest ih =>
    simp only [storageUpdate, List.map_cons, getCache] at *
    by_cases hg : g.1 = n
    · simp [hg, hne, ih]
    · by_cases hn : g.1 = name
      · simp [hg, hn, hne, h]
      · simp [hg, hn, ih]

theorem getCache_storageUpdate_self (s : CacheStorage) (n : String)
    (f : Cache → Cache) (h : hasGen s n = true) :
    getCache (storageUpdate s n f) n = f (getCache s n) := by
  induction s with
  | nil => simp [hasGen] at h
  | cons g rest ih =>
    simp only [storageUpdate, List.map_cons, getCache, hasGen] at *
    by_cases hg : g.1 = n
    · simp [hg]
    · simp only [if_neg hg] at h
      simp [hg, ih h]

theorem storageUpdate_storageUpdate (s : CacheStorage) (n : String)
    (f g : Cache → Cache) :
    storageUpdate (storageUpdate s n f) n g
      = storageUpdate s n (fun c => g (f c)) := by
  induction s with
  | nil => rfl
  | cons e rest ih =>
    simp only [storageUpdate, List.map_cons] at *
    by_cases he : e.1 = n
    · simp [he, ih, storageUpdate]
    · simp [he, ih, storageUpdate]

/-! ### Lemmas about `cachePut` and `putAll` -/

theorem hasKey_false_forall (c : Cache) (k : String) (h : hasKey c k = false) :
    ∀ e ∈ c, e.1 ≠ k := by
  induction c with
  | nil => intro e he; cases he
  | cons e0 rest ih =>
    intro e he
    simp only [hasKey] at h
    by_cases h0 : e0.1 = k
    · simp [h0] at h
    · rcases List.mem_cons.mp he with rfl | hmem
      · exact h0
      · exact ih (by simpa [h0] using h) e hmem

theorem cacheMatch_map_replace_self (c : Cache) (k : String) (r : Response)
    (h : hasKey c k = true) :
    cacheMatch (c.map (fun e => if e.1 = k then (k, r) else e)) k = some r := by
  induction c with
  | nil => simp [hasKey] at h
  | cons e rest ih =>
    simp only [hasKey] at h
    by_cases he : e.1 = k
    · simp [cacheMatch, he]
    · simp only [if_neg he] at h
      simp [cacheMatch, he, ih h]

theorem cacheMatch_append_single_self (c : Cache) (k : String) (r : Response)
    (h : hasKey c k = false) :
    cacheMatch (c ++ [(k, r)]) k = some r := by
  induction c with
  | nil => simp [cacheMatch]
  | cons e rest ih =>
    simp only [hasKey] at h
    by_cases he : e.1 = k
    · simp [he] at h
    · simp only [if_neg he] at h
      simp [cacheMatch, he, ih h]

theorem cacheMatch_cachePut_self (c : Cache) (k : String) (r : Response) :
    cacheMatch (cachePut c k r) k = some r := by
  unfold cachePut
  by_cases h : hasKey c k = true
  · rw [if_pos h]
    exact cacheMatch_map_replace_self c k r h
  · rw [if_neg h]
    exact cacheMatch_append_single_self c k r (by simpa using h)

theorem allKey_cachePut_self (c : Cache) (k : String) (r : Response) :
    allKey (cachePut c k r) k r := by
  unfold cachePut
  by_cases h : hasKey c k = true
  · rw [if_pos h]
    intro e he hk1
    rcases List.mem_map.mp he with ⟨e0, _, rfl⟩
    by_cases h0 : e0.1 = k
    · simp [h0]
    · simp only [if_neg h0] at hk1 ⊢
      exact absurd hk1 h0
  · rw [if_neg h]
    intro e he hk
    rcases List.mem_append.mp he with hmem | hmem
    · exact absurd hk (hasKey_false_forall c k (by simpa using h) e hmem)
    · simpa using hmem

theorem allKey_cachePut_other (c : Cache) (k k2 : String) (r r2 : Response)
    (hne : k2 ≠ k) (h : allKey c k r) : allKey (cachePut c k2 r2) k r := by
  unfold cachePut
  by_cases hk : hasKey c k2 = true
  · rw [if_pos hk]
    intro e he hk1
    rcases List.mem_map.mp he with ⟨e0, hmem, rfl⟩
    by_cases h0 : e0.1 = k2
    · simp only [if_pos h0] at hk1 ⊢
      exact absurd hk1 hne
    · simp only [if_neg h0] at hk1 ⊢
      exact h e0 hmem hk1
  · rw [if_neg hk]
    intro e he hk1
    rcases List.mem_append.mp he with hmem | hmem
    · exact h e hmem hk1
    · have : e = (k2, r2) := by simpa using hmem
      rw [this] at hk1
      exact absurd hk1 hne

theorem hasKey_map_replace (c : Cache) (k k1 : String) (r : Response) :
    hasKey (c.map (fun e => if e.1 = k then (k, r) else e)) k1 = hasKey c k1 := by
  induction c with
  | nil => rfl
  | cons e rest ih =>
    by_cases he : e.1 = k
    · simp [hasKey, he, ih]
    · simp [hasKey, he, ih]

theorem hasKey_append_single (c : Cache) (k k1 : String) (r : Response) :
    hasKey (c ++ [(k, r)]) k1 = (hasKey c k1 || decide (k = k1)) := by
  induction c with
  | nil => simp [hasKey]
  | cons e rest ih =>
    by_cases he : e.1 = k1
    · simp [hasKey, he]
    · simp [hasKey, he, ih]

theorem hasKey_cachePut_self (c : Cache) (k : String) (r : Response) :
    hasKey (cachePut c k r) k = true := by
  unfold cachePut
  by_cases h : hasKey c k = true
  · rw [if_pos h, hasKey_map_replace]
    exact h
  · rw [if_neg h, hasKey_append_single]
    simp

theorem hasKey_cachePut_mono (c : Cache) (k k1 : String) (r : Response)
    (h : hasKey c k1 = true) : hasKey (cachePut c k r) k1 = true := by
  unfold cachePut
  by_cases hk : hasKey c k = true
  · rw [if_pos hk, hasKey_map_replace]
    exact h
  · rw [if_neg hk, hasKey_append_single, h]
    rfl

theorem cachePut_eq_self (c : Cache) (k : String) (r : Response)
    (hk : hasKey c k = true) (ha : allKey c k r) : cachePut c k r = c := by
  unfold cachePut
  rw [if_pos hk]
  have : ∀ e ∈ c, (if e.1 = k then (k, r) else e) = e := by
    intro e he
    by_cases h0 : e.1 = k
    · rw [if_pos h0, ha e he h0]
    · rw [if_neg h0]
  rw [List.map_congr_left this]
  simp

theorem allKey_putAll (c : Cache) (k : String) (r : Response)
    (es : List (String × Response)) (hes : ∀ e ∈ es, e.1 ≠ k)
    (ha : allKey c k r) : allKey (putAll c es) k r := by
  induction es generalizing c with
  | nil => exact ha
  | cons e tl ih =>
    simp only [putAll, List.foldl_cons]
    exact ih (cachePut c e.1 e.2)
      (fun e1 h1 => hes e1 (List.mem_cons_of_mem e h1))
      (allKey_cachePut_other c k e.1 r e.2 (hes e (List.mem_cons_self e tl)) ha)

theorem hasKey_putAll_mono (c : Cache) (k : String)
    (es : List (String × Response)) (h : hasKey c k = true) :
    hasKey (putAll c es) k = true := by
  induction es generalizing c with
  | nil => exact h
  | cons e tl ih =>
    simp only [putAll, List.foldl_cons]
    exact ih (cachePut c e.1 e.2) (hasKey_cachePut_mono c e.1 k e.2 h)

theorem putAll_idem (c : Cache) (es : List (String × Response))
    (hnd : (es.map Prod.fst).Nodup) :
    putAll (putAll c es) es = putAll c es := by
  induction es generalizing c with
  | nil => rfl
  | cons e tl ih =>
    simp only [List.map_cons, List.nodup_cons] at hnd
    obtain ⟨hk, htl⟩ := hnd
    have hks : ∀ e1 ∈ tl, e1.1 ≠ e.1 := by
      intro e1 h1 hc
      exact hk (hc ▸ List.mem_map_of_mem Prod.fst h1)
    simp only [putAll, List.foldl_cons]
    have hall : allKey (putAll (cachePut c e.1 e.2) tl) e.1 e.2 :=
      allKey_putAll (cachePut c e.1 e.2) e.1 e.2 tl hks
        (allKey_cachePut_self c e.1 e.2)
    have hhk : hasKey (putAll (cachePut c e.1 e.2) tl) e.1 = true :=
      hasKey_putAll_mono (cachePut c e.1 e.2) e.1 tl
        (hasKey_cachePut_self c e.1 e.2)
    calc putAll (cachePut (putAll (cachePut c e.1 e.2) tl) e.1 e.2) tl
        = putAll (putAll (cachePut c e.1 e.2) tl) tl := by
          rw [cachePut_eq_self _ e.1 e.2 hhk hall]
      _ = putAll (cachePut c e.1 e.2) tl := ih (cachePut c e.1 e.2) htl

/-! ### Lemmas about install and activate -/

theorem cachesOpen_of_hasGen (s : CacheStorage) (n : String)
    (h : hasGen s n = true) : cachesOpen s n = s := by
  unfold cachesOpen
  rw [if_pos h]

theorem install_eq_of_none (s : CacheStorage) (net : Network)
    (h : fetchAllOk net PRECACHE_ASSETS = none) :
    install s net = cachesOpen s CACHE_NAME := by
  unfold install
  rw [h]

theorem install_eq_of_some (s : CacheStorage) (net : Network)
    (es : List (String × Response))
    (h : fetchAllOk net PRECACHE_ASSETS = some es) :
    install s net
      = storageUpdate (cachesOpen s CACHE_NAME) CACHE_NAME
          (fun c => putAll c es) := by
  unfold install
  rw [h]

theorem fetchAllOk_none (net : Network) (u : String) (us : List String)
    (hu : u ∈ us) (hnet : net u = none) : fetchAllOk net us = none := by
  induction us with
  | nil => cases hu
  | cons v tl ih =>
    rcases List.mem_cons.mp hu with rfl | hmem
    · simp [fetchAllOk, hnet]
    · cases hv : net v <;> simp [fetchAllOk, hv, ih hmem]

theorem fetchAllOk_keys (net : Network) (us : List String)
    (es : List (String × Response)) (h : fetchAllOk net us = some es) :
    es.map Prod.fst = us := by
  induction us generalizing es with
  | nil =>
    simp only [fetchAllOk, Option.some.injEq] at h
    rw [← h]
    rfl
  | cons u tl ih =>
    simp only [fetchAllOk] at h
    cases hn : net u with
    | none => rw [hn] at h; cases h
    | some r =>
      rw [hn] at h
      cases hf : fetchAllOk net tl with
      | none => rw [hf] at h; cases h
      | some rest =>
        rw [hf] at h
        by_cases hok : r.ok = true
        · simp only [hok, if_true, Option.some.injEq] at h
          rw [← h, List.map_cons, ih rest hf]
        · simp [hok] at h

theorem precache_nodup : PRECACHE_ASSETS.Nodup := by
  decide

theorem hasGen_eq_mem (s : CacheStorage) (n : String) :
    hasGen s n = true ↔ n ∈ cachesKeys s := by
  induction s with
  | nil => simp [hasGen, cachesKeys]
  | cons g rest ih =>
    have : cachesKeys (g :: rest) = g.1 :: cachesKeys rest := rfl
    rw [this]
    simp only [hasGen, List.mem_cons]
    by_cases h : g.1 = n
    · simp [h]
    · have h2 : ¬ (n = g.1) := fun hc => h hc.symm
      simp [h, h2, ih]

theorem hasGen_false_filter (s : CacheStorage) (n : String)
    (h : hasGen s n = false) : s.filter (fun g => g.1 == n) = [] := by
  induction s with
  | nil => rfl
  | cons g rest ih =>
    simp only [hasGen] at h
    by_cases hg : g.1 = n
    · rw [if_pos hg] at h
      cases h
    · rw [if_neg hg] at h
      simp [List.filter_cons, hg, ih h]

theorem activate_keys (s : CacheStorage) (hg : hasGen s CACHE_NAME = true)
    (hnd : (cachesKeys s).Nodup) : cachesKeys (activate s) = [CACHE_NAME] := by
  induction s with
  | nil => cases hg
  | cons g rest ih =>
    have hkeys : cachesKeys (g :: rest) = g.1 :: cachesKeys rest := rfl
    rw [hkeys] at hnd
    simp only [List.nodup_cons] at hnd
    obtain ⟨hnotin, hndr⟩ := hnd
    simp only [hasGen] at hg
    by_cases h : g.1 = CACHE_NAME
    · have hrest : hasGen rest CACHE_NAME = false := by
        cases hr : hasGen rest CACHE_NAME
        · rfl
        · exact absurd (h ▸ (hasGen_eq_mem rest CACHE_NAME).mp hr) hnotin
      simp [activate, List.filter_cons, h, hasGen_false_filter rest CACHE_NAME hrest, cachesKeys]
    · rw [if_neg h] at hg
      have := ih hg hndr
      simp only [activate, List.filter_cons] at this ⊢
      simp [h, this]

theorem getCache_activate (s : CacheStorage) :
    getCache (activate s) CACHE_NAME = getCache s CACHE_NAME := by
  induction s with
  | nil => rfl
  | cons g rest ih =>
    simp only [activate, List.filter_cons] at ih ⊢
    by_cases h : g.1 = CACHE_NAME
    · simp [h, getCache]
    · simp [h, getCache, ih]

theorem getCache_storagePut_open_self (s : CacheStorage) (k : String)
    (r : Response) :
    getCache (storagePut (cachesOpen s CACHE_NAME) CACHE_NAME k r) CACHE_NAME
      = cachePut (getCache s CACHE_NAME) k r := by
  unfold storagePut
  rw [getCache_storageUpdate_self _ _ _ (hasGen_cachesOpen_self s CACHE_NAME),
      getCache_cachesOpen]

/-! ### Branch lemmas for the three strategies -/

theorem cacheFirst_hit (s : CacheStorage) (net : Network) (req : Request)
    (c : Response) (h : cachesMatch s req.url = some c) :
    cacheFirst s net req = ⟨some c, s, [CacheOp.matchAll req.url], []⟩ := by
  simp [cacheFirst, h]

theorem cacheFirst_miss_ok (s : CacheStorage) (net : Network) (req : Request)
    (r : Response) (h1 : cachesMatch s req.url = none)
    (h2 : net req.url = some r) (hok : r.ok = true) :
    cacheFirst s net req
      = ⟨some r, storagePut (cachesOpen s CACHE_NAME) CACHE_NAME req.url r,
         [CacheOp.matchAll req.url, CacheOp.openGen CACHE_NAME,
          CacheOp.put CACHE_NAME req.url], [req.url]⟩ := by
  simp [cacheFirst, h1, h2, hok]

theorem cacheFirst_miss_notok (s : CacheStorage) (net : Network)
    (req : Request) (r : Response) (h1 : cachesMatch s req.url = none)
    (h2 : net req.url = some r) (hok : r.ok = false) :
    cacheFirst s net req
      = ⟨some r, s, [CacheOp.matchAll req.url], [req.url]⟩ := by
  simp [cacheFirst, h1, h2, hok]

theorem cacheFirst_miss_fail (s : CacheStorage) (net : Network)
    (req : Request) (h1 : cachesMatch s req.url = none)
    (h2 : net req.url = none) :
    cacheFirst s net req
      = ⟨some offlineResponse, s, [CacheOp.matchAll req.url], [req.url]⟩ := by
  simp [cacheFirst, h1, h2]

theorem networkFirst_ok (s : CacheStorage) (net : Network) (req : Request)
    (r : Response) (h : net req.url = some r) (hok : r.ok = true) :
    networkFirst s net req
      = ⟨some r, storagePut (cachesOpen s CACHE_NAME) CACHE_NAME req.url r,
         [CacheOp.openGen CACHE_NAME, CacheOp.put CACHE_NAME req.url],
         [req.url]⟩ := by
  simp [networkFirst, h, hok]

theorem networkFirst_notok (s : CacheStorage) (net : Network) (req : Request)
    (r : Response) (h : net req.url = some r) (hok : r.ok = false) :
    networkFirst s net req = ⟨some r, s, [], [req.url]⟩ := by
  simp [networkFirst, h, hok]

theorem networkFirst_fail_hit (s : CacheStorage) (net : Network)
    (req : Request) (c : Response) (h : net req.url = none)
    (hc : cachesMatch s req.url = some c) :
    networkFirst s net req
      = ⟨some c, s, [CacheOp.matchAll req.url], [req.url]⟩ := by
  simp [networkFirst, h, hc]

theorem networkFirst_fail_nav_offline (s : CacheStorage) (net : Network)
    (req : Request) (page : Response) (h : net req.url = none)
    (hc : cachesMatch s req.url = none) (hm : req.mode = "navigate")
    (ho : cachesMatch s OFFLINE_URL = some page) :
    networkFirst s net req
      = ⟨some page, s,
         [CacheOp.matchAll req.url, CacheOp.matchAll OFFLINE_URL],
         [req.url]⟩ := by
  simp [networkFirst, h, hc, hm, ho]

theorem networkFirst_fail_nav_nooffline (s : CacheStorage) (net : Network)
    (req : Request) (h : net req.url = none)
    (hc : cachesMatch s req.url = none) (hm : req.mode = "navigate")
    (ho : cachesMatch s OFFLINE_URL = none) :
    networkFirst s net req
      = ⟨cachesMatch s "/", s,
         [CacheOp.matchAll req.url, CacheOp.matchAll OFFLINE_URL,
          CacheOp.matchAll "/"], [req.url]⟩ := by
  simp [networkFirst, h, hc, hm, ho]

theorem networkFirst_fail_nonnav (s : CacheStorage) (net : Network)
    (req : Request) (h : net req.url = none)
    (hc : cachesMatch s req.url = none) (hm : ¬ (req.mode = "navigate")) :
    networkFirst s net req
      = ⟨some offlineResponse, s, [CacheOp.matchAll req.url], [req.url]⟩ := by
  simp [networkFirst, h, hc, hm]

theorem swr_response_hit (s : CacheStorage) (net : Network) (req : Request)
    (c : Response) (hc : cacheMatch (getCache s CACHE_NAME) req.url = some c) :
    (staleWhileRevalidate s net req).response = some c := by
  simp [staleWhileRevalidate, getCache_cachesOpen, hc]

theorem swr_response_miss_fetch (s : CacheStorage) (net : Network)
    (req : Request) (r : Response)
    (hc : cacheMatch (getCache s CACHE_NAME) req.url = none)
    (hn : net req.url = some r) :
    (staleWhileRevalidate s net req).response = some r := by
  simp [staleWhileRevalidate, getCache_cachesOpen, hc, hn]

theorem swr_response_miss_fail (s : CacheStorage) (net : Network)
    (req : Request) (hc : cacheMatch (getCache s CACHE_NAME) req.url = none)
    (hn : net req.url = none) :
    (staleWhileRevalidate s net req).response = none := by
  simp [staleWhileRevalidate, getCache_cachesOpen, hc, hn]

theorem swr_state_ok (s : CacheStorage) (net : Network) (req : Request)
    (r : Response) (hn : net req.url = some r) (hok : r.ok = true) :
    (staleWhileRevalidate s net req).state
      = storagePut (cachesOpen s CACHE_NAME) CACHE_NAME req.url r := by
  simp [staleWhileRevalidate, hn, hok]

theorem swr_state_notok (s : CacheStorage) (net : Network) (req : Request)
    (r : Response) (hn : net req.url = some r) (hok : r.ok = false) :
    (staleWhileRevalidate s net req).state = cachesOpen s CACHE_NAME := by
  simp [staleWhileRevalidate, hn, hok]

theorem swr_state_fail (s : CacheStorage) (net : Network) (req : Request)
    (hn : net req.url = none) :
    (staleWhileRevalidate s net req).state = cachesOpen s CACHE_NAME := by
  simp [staleWhileRevalidate, hn]

theorem getCache_storagePut_open_ne (s : CacheStorage) (k : String)
    (r : Response) (name : String) (h : name ≠ CACHE_NAME) :
    getCache (storagePut (cachesOpen s CACHE_NAME) CACHE_NAME k r) name
      = getCache s name := by
  unfold storagePut
  rw [getCache_storageUpdate_ne _ _ _ _ h, getCache_cachesOpen]

/-! ### Claim theorems -/

/-- C1 (counterexample): a run of the Install operation in which every
precache fetch fails, starting from an empty storage, does create a new
generation: `caches.open(CACHE_NAME)` runs before `cache.addAll` can
fail, so the generation named by the version tag exists (empty) after the
failed install, refuting the claim that no new generation is created. -/
theorem install_atomicity_cex :
    netFailAll "/" = none ∧ "/" ∈ PRECACHE_ASSETS ∧
    cachesKeys (install [] netFailAll) = [CACHE_NAME] ∧
    cachesKeys (install [] netFailAll) ≠ cachesKeys ([] : CacheStorage) := by
  decide

/-- C1 (amended): for every run of the Install operation in which at
least one precache-manifest fetch fails, no entries are stored anywhere:
every generation's contents — in particular the previously active
generation's — are exactly what they were before, and the only possible
change to the set of generations is the creation of one new empty
generation named by the current version tag. -/
theorem install_atomicity_amended (s : CacheStorage) (net : Network)
    (name : String) (h : ∃ u ∈ PRECACHE_ASSETS, net u = none) :
    getCache (install s net) name = getCache s name ∧
    cachesKeys (install s net)
      = (if hasGen s CACHE_NAME = true then cachesKeys s
         else cachesKeys s ++ [CACHE_NAME]) := by
  obtain ⟨u, hu, hnet⟩ := h
  have hf := fetchAllOk_none net u PRECACHE_ASSETS hu hnet
  rw [install_eq_of_none s net hf]
  refine ⟨getCache_cachesOpen s CACHE_NAME name, ?_⟩
  by_cases hg : hasGen s CACHE_NAME = true
  · simp [cachesOpen, hg]
  · simp [cachesOpen, hg, cachesKeys]

/-- C1 witness: the amended statement evaluated on a storage holding one
superseded generation and a network that fails every fetch. -/
theorem install_atomicity_amended_witness :
    (∃ u ∈ PRECACHE_ASSETS, netFailAll u = none) ∧
    getCache (install oldGenState netFailAll) "hadiye-v0.9.0"
      = [("/", { status := 200, body := "old" })] ∧
    cachesKeys (install oldGenState netFailAll)
      = ["hadiye-v0.9.0", CACHE_NAME] := by
  have hex : ∃ u ∈ PRECACHE_ASSETS, netFailAll u = none :=
    ⟨"/", by decide, rfl⟩
  have h := install_atomicity_amended oldGenState netFailAll "hadiye-v0.9.0" hex
  refine ⟨hex, ?_, ?_⟩
  · rw [h.1]
    decide
  · rw [h.2]
    decide

/-- C2 (counterexample): for a navigating Document request whose network
fetch fails at the transport level, with nothing cached at all, the
strategy returns the bare result of `caches.match('/')` — that is,
nothing — rather than the synthetic 503 the claim requires as the final
fallback. -/
theorem networkFirst_fallback_cex :
    (networkFirst [] netFailAll navReq).response = none ∧
    (networkFirst [] netFailAll navReq).response ≠ some offlineResponse := by
  decide

/-- C2 (amended): for every Document request whose network fetch fails at
the transport level, the strategy returns the cached entry if one exists;
otherwise, if the request is a navigation, it returns the offline
document if cached, else the bare result of looking up the root document
— which is nothing (`undefined`) when the root is not cached, never the
synthetic 503; the synthetic 503 is returned only for non-navigation
requests. -/
theorem networkFirst_fallback_amended (s : CacheStorage) (net : Network)
    (req : Request) (h : net req.url = none) :
    (networkFirst s net req).response
      = match cachesMatch s req.url with
        | some c => some c
        | none =>
          if req.mode = "navigate" then
            match cachesMatch s OFFLINE_URL with
            | some page => some page
            | none => cachesMatch s "/"
          else some offlineResponse := by
  cases hc : cachesMatch s req.url with
  | some c =>
    rw [networkFirst_fail_hit s net req c h hc]
  | none =>
    by_cases hm : req.mode = "navigate"
    · cases ho : cachesMatch s OFFLINE_URL with
      | some page =>
        rw [networkFirst_fail_nav_offline s net req page h hc hm ho]
        simp [hm, ho]
      | none =>
        rw [networkFirst_fail_nav_nooffline s net req h hc hm ho]
        simp [hm, ho]
    · rw [networkFirst_fail_nonnav s net req h hc hm]
      simp [hm]

/-- C2 witness: the amended statement evaluated on a storage whose active
generation holds the offline page, for a navigation whose fetch fails. -/
theorem networkFirst_fallback_amended_witness :
    netFailAll navReq.url = none ∧
    (networkFirst offlineCachedState netFailAll navReq).response
      = some { status := 200, body := "offline page" } := by
  have h := networkFirst_fallback_amended offlineCachedState netFailAll navReq rfl
  refine ⟨rfl, ?_⟩
  rw [h]
  decide

/-- C3 (counterexample): a Cache-First request whose fetch completes with
HTTP 404 has the 404 returned to the caller as-is, but nothing is stored:
the state is unchanged and the cache still has no entry for the request,
refuting the claim that the erroneous response is both stored and
returned. -/
theorem error_status_caching_cex :
    (cacheFirst [] net404 dataReq).response
      = some { status := 404, body := "not found" } ∧
    (cacheFirst [] net404 dataReq).state = [] ∧
    cachesMatch (cacheFirst [] net404 dataReq).state dataReq.url = none := by
  decide

/-- C3 (amended): for every Cache-First or Network-First request whose
network fetch completes with a non-successful HTTP status (`response.ok`
false, e.g. 404 or 5xx), the response is returned to the caller as-is but
is NOT stored: the cache storage is left exactly unchanged.  Only
responses with a successful (2xx) status are stored.  For Network-First
this holds on every storage, cached entry or not, since that strategy
always fetches; for Cache-First the fetch only happens on a cache miss,
so the miss condition is intrinsic to its branch. -/
theorem error_status_caching_amended (s : CacheStorage) (net : Network)
    (req : Request) (r : Response)
    (h2 : net req.url = some r) (h3 : r.ok = false) :
    (networkFirst s net req).response = some r ∧
    (networkFirst s net req).state = s ∧
    (cachesMatch s req.url = none →
      (cacheFirst s net req).response = some r ∧
      (cacheFirst s net req).state = s) := by
  rw [networkFirst_notok s net req r h2 h3]
  refine ⟨rfl, rfl, ?_⟩
  intro h1
  rw [cacheFirst_miss_notok s net req r h1 h2 h3]
  exact ⟨rfl, rfl⟩

/-- C3 witness: the amended statement evaluated with a network answering
404 — Network-First on a storage that does hold a cached entry for the
request (the fetch still happens and the 404 is returned uncached), and
Cache-First on an empty storage. -/
theorem error_status_caching_amended_witness :
    net404 dataReq.url = some { status := 404, body := "not found" } ∧
    ({ status := 404, body := "not found" } : Response).ok = false ∧
    (networkFirst cachedDataState net404 dataReq).response
      = some { status := 404, body := "not found" } ∧
    (networkFirst cachedDataState net404 dataReq).state = cachedDataState ∧
    cachesMatch [] dataReq.url = none ∧
    (cacheFirst [] net404 dataReq).response
      = some { status := 404, body := "not found" } ∧
    (cacheFirst [] net404 dataReq).state = [] := by
  have hA := error_status_caching_amended cachedDataState net404 dataReq
    { status := 404, body := "not found" } rfl (by decide)
  have hB := error_status_caching_amended [] net404 dataReq
    { status := 404, body := "not found" } rfl (by decide)
  exact ⟨rfl, by decide, hA.1, hA.2.1, rfl, (hB.2.2 rfl).1, (hB.2.2 rfl).2⟩

/-- C4: Cache-First behaviour.  A cached entry is returned unchanged with
zero network calls; on a miss with a successful fetch the response is
returned and a copy is stored under the request in the active generation;
on a transport failure the synthetic 503 "Offline" response is returned
(the error is represented, not propagated) and the state is unchanged. -/
theorem cacheFirst_contract (s : CacheStorage) (net : Network) (req : Request)
    (c r : Response) :
    (cachesMatch s req.url = some c →
      (cacheFirst s net req).response = some c ∧
      (cacheFirst s net req).state = s ∧
      (cacheFirst s net req).netCalls = []) ∧
    (cachesMatch s req.url = none → net req.url = some r → r.ok = true →
      (cacheFirst s net req).response = some r ∧
      (cacheFirst s net req).netCalls = [req.url] ∧
      cacheMatch (getCache (cacheFirst s net req).state CACHE_NAME) req.url
        = some r) ∧
    (cachesMatch s req.url = none → net req.url = none →
      (cacheFirst s net req).response = some offlineResponse ∧
      (cacheFirst s net req).state = s) := by
  refine ⟨?_, ?_, ?_⟩
  · intro h
    rw [cacheFirst_hit s net req c h]
    exact ⟨rfl, rfl, rfl⟩
  · intro h1 h2 h3
    rw [cacheFirst_miss_ok s net req r h1 h2 h3]
    refine ⟨rfl, rfl, ?_⟩
    show cacheMatch
      (getCache (storagePut (cachesOpen s CACHE_NAME) CACHE_NAME req.url r)
        CACHE_NAME) req.url = some r
    rw [getCache_storagePut_open_self]
    exact cacheMatch_cachePut_self _ _ _
  · intro h1 h2
    rw [cacheFirst_miss_fail s net req h1 h2]
    exact ⟨rfl, rfl⟩

/-- C4 witness: the three branches of the contract evaluated at concrete
inputs — a cached hit with a failing network, a miss with a 200 fetch,
and a miss with a transport failure. -/
theorem cacheFirst_contract_witness :
    ((cacheFirst cachedDataState netFailAll dataReq).response
        = some { status := 200, body := "cached" } ∧
      (cacheFirst cachedDataState netFailAll dataReq).netCalls = []) ∧
    cacheMatch (getCache (cacheFirst [] netOk dataReq).state CACHE_NAME)
        dataReq.url = some { status := 200, body := "fresh" } ∧
    (cacheFirst [] netFailAll dataReq).response = some offlineResponse := by
  have h1 := (cacheFirst_contract cachedDataState netFailAll dataReq
    { status := 200, body := "cached" } offlineResponse).1 (by decide)
  have h2 := (cacheFirst_contract [] netOk dataReq offlineResponse
    { status := 200, body := "fresh" }).2.1 rfl rfl (by decide)
  have h3 := (cacheFirst_contract [] netFailAll dataReq offlineResponse
    offlineResponse).2.2 rfl rfl
  exact ⟨⟨h1.1, h1.2.2⟩, h2.2.2, h3.1⟩

/-- C5 (counterexample): a Stale-While-Revalidate request with no cached
entry whose fetch fails at the transport level resolves with nothing (the
`.catch` returns the absent `cached` value, i.e. `undefined`), not with
the synthetic fallback response the claim requires. -/
theorem swr_return_cex :
    (staleWhileRevalidate [] netFailAll jsReq).response = none ∧
    (staleWhileRevalidate [] netFailAll jsReq).response
      ≠ some offlineResponse := by
  decide

/-- C5 (amended): for every Stale-While-Revalidate request, if a cached
entry exists in the active generation it is returned whatever the
revalidation fetch does; if no cached entry exists, the network fetch's
response is returned when the fetch completes (any status), and nothing
(`undefined`, not a synthetic fallback) is returned when the fetch fails
at the transport level. -/
theorem swr_return_amended (s : CacheStorage) (net : Network) (req : Request)
    (c r : Response) :
    (cacheMatch (getCache s CACHE_NAME) req.url = some c →
      (staleWhileRevalidate s net req).response = some c) ∧
    (cacheMatch (getCache s CACHE_NAME) req.url = none →
      net req.url = some r →
      (staleWhileRevalidate s net req).response = some r) ∧
    (cacheMatch (getCache s CACHE_NAME) req.url = none →
      net req.url = none →
      (staleWhileRevalidate s net req).response = none) :=
  ⟨fun hc => swr_response_hit s net req c hc,
   fun hc hn => swr_response_miss_fetch s net req r hc hn,
   fun hc hn => swr_response_miss_fail s net req hc hn⟩

/-- C5 witness: the three branches evaluated at concrete inputs — a
cached hit with a 500-answering network (the 500 is not surfaced), a miss
with a 200 fetch, and a miss with a transport failure. -/
theorem swr_return_amended_witness :
    (staleWhileRevalidate cachedJsState net500 jsReq).response
      = some { status := 200, body := "cached js" } ∧
    (staleWhileRevalidate [] netOk jsReq).response
      = some { status := 200, body := "fresh" } ∧
    (staleWhileRevalidate [] netFailAll jsReq).response = none := by
  have h1 := (swr_return_amended cachedJsState net500 jsReq
    { status := 200, body := "cached js" } offlineResponse).1 (by decide)
  have h2 := (swr_return_amended [] netOk jsReq offlineResponse
    { status := 200, body := "fresh" }).2.1 rfl rfl
  have h3 := (swr_return_amended [] netFailAll jsReq offlineResponse
    offlineResponse).2.2 rfl rfl
  exact ⟨h1, h2, h3⟩

/-- C6: Activate garbage collection.  Every generation whose name is not
the current version tag is deleted: afterwards the generation set is
exactly the singleton of the current version's generation, whose contents
are untouched.  The hypotheses hold on every reachable activation state:
install always opens the generation named by the tag first, and the
browser storage never holds two generations with the same name. -/
theorem activate_gc (s : CacheStorage) (hg : hasGen s CACHE_NAME = true)
    (hnd : (cachesKeys s).Nodup) :
    cachesKeys (activate s) = [CACHE_NAME] ∧
    getCache (activate s) CACHE_NAME = getCache s CACHE_NAME :=
  ⟨activate_keys s hg hnd, getCache_activate s⟩

/-- C6 witness: activation of a storage holding a superseded generation
and the current one deletes exactly the superseded one. -/
theorem activate_gc_witness :
    hasGen twoGenState CACHE_NAME = true ∧
    (cachesKeys twoGenState).Nodup ∧
    cachesKeys (activate twoGenState) = [CACHE_NAME] ∧
    getCache (activate twoGenState) CACHE_NAME
      = [("/", { status := 200, body := "home" })] := by
  have h := activate_gc twoGenState (by decide) (by decide)
  refine ⟨by decide, by decide, h.1, ?_⟩
  rw [h.2]
  decide

/-- C7: routing bypass.  For every request whose method is not GET or
whose protocol does not start with "http", the fetch handler does not
intercept: no response is produced, the state is unchanged, and no cache
operation or network call is performed by the worker. -/
theorem routing_bypass (s : CacheStorage) (net : Network) (req : Request)
    (h : req.method ≠ "GET" ∨ strStartsWith req.protocol "http" = false) :
    handleFetch s net req
      = { intercepted := false, response := none, state := s, ops := [],
          netCalls := [] } := by
  rcases h with h | h
  · simp [handleFetch, h]
  · by_cases hm : req.method = "GET"
    · simp [handleFetch, hm, h]
    · simp [handleFetch, hm]

/-- C7 witness: a POST request and an extension-scheme request are both
passed through untouched. -/
theorem routing_bypass_witness :
    (postReq.method ≠ "GET" ∨ strStartsWith postReq.protocol "http" = false) ∧
    handleFetch oldGenState netFailAll postReq
      = { intercepted := false, response := none, state := oldGenState,
          ops := [], netCalls := [] } ∧
    (extReq.method ≠ "GET" ∨ strStartsWith extReq.protocol "http" = false) ∧
    handleFetch oldGenState netFailAll extReq
      = { intercepted := false, response := none, state := oldGenState,
          ops := [], netCalls := [] } := by
  have hp : postReq.method ≠ "GET" ∨ strStartsWith postReq.protocol "http" = false :=
    Or.inl (by decide)
  have he : extReq.method ≠ "GET" ∨ strStartsWith extReq.protocol "http" = false :=
    Or.inr (by decide)
  exact ⟨hp, routing_bypass oldGenState netFailAll postReq hp,
         he, routing_bypass oldGenState netFailAll extReq he⟩

/-- C8: Install idempotence.  With the manifest, the version tag and the
network responses unchanged, running the Install operation twice from any
storage yields exactly the same storage as running it once — same active
generation, same contents, no duplicated entries, no drift. -/
theorem install_idempotent (s : CacheStorage) (net : Network) :
    install (install s net) net = install s net := by
  cases hf : fetchAllOk net PRECACHE_ASSETS with
  | none =>
    rw [install_eq_of_none (install s net) net hf,
        install_eq_of_none s net hf, cachesOpen_idem]
  | some es =>
    have hnd : (es.map Prod.fst).Nodup := by
      rw [fetchAllOk_keys net PRECACHE_ASSETS es hf]
      exact precache_nodup
    rw [install_eq_of_some (install s net) net es hf,
        install_eq_of_some s net es hf]
    have hg1 : hasGen
        (storageUpdate (cachesOpen s CACHE_NAME) CACHE_NAME
          (fun c => putAll c es)) CACHE_NAME = true := by
      rw [hasGen_storageUpdate]
      exact hasGen_cachesOpen_self s CACHE_NAME
    rw [cachesOpen_of_hasGen _ CACHE_NAME hg1, storageUpdate_storageUpdate]
    have hfun : (fun c => putAll (putAll c es) es) = fun c => putAll c es :=
      funext (fun c => putAll_idem c es hnd)
    rw [hfun]

/-- C9 (counterexample): Cache-First looks a request up with the global
`caches.match`, which searches every generation: on a storage whose
active generation is empty while a superseded generation holds an entry
for the request, the strategy returns that entry even though the active
generation has none — a read served from a non-active generation,
refuting the claim that all cache reads consult only the active
generation. -/
theorem read_scope_cex :
    (cacheFirst strayEntryState netFailAll dataReq).response
      = some { status := 200, body := "stale" } ∧
    cacheMatch (getCache strayEntryState CACHE_NAME) dataReq.url = none := by
  decide

/-- C9 (amended): all cache writes performed by the three strategies go
into the active generation only — the contents of every other generation
are left exactly unchanged by any strategy run.  (Reads, by contrast,
use the global lookup in Cache-First and Network-First, so they may be
served from a non-active generation; only Stale-While-Revalidate reads
exclusively from the active generation.) -/
theorem write_scope_amended (s : CacheStorage) (net : Network) (req : Request)
    (name : String) (h : name ≠ CACHE_NAME) :
    getCache (cacheFirst s net req).state name = getCache s name ∧
    getCache (networkFirst s net req).state name = getCache s name ∧
    getCache (staleWhileRevalidate s net req).state name = getCache s name := by
  refine ⟨?_, ?_, ?_⟩
  · cases hc : cachesMatch s req.url with
    | some c => rw [cacheFirst_hit s net req c hc]
    | none =>
      cases hn : net req.url with
      | none => rw [cacheFirst_miss_fail s net req hc hn]
      | some r =>
        cases hok : r.ok with
        | true =>
          rw [cacheFirst_miss_ok s net req r hc hn hok]
          exact getCache_storagePut_open_ne s req.url r name h
        | false => rw [cacheFirst_miss_notok s net req r hc hn hok]
  · cases hn : net req.url with
    | some r =>
      cases hok : r.ok with
      | true =>
        rw [networkFirst_ok s net req r hn hok]
        exact getCache_storagePut_open_ne s req.url r name h
      | false => rw [networkFirst_notok s net req r hn hok]
    | none =>
      cases hc : cachesMatch s req.url with
      | some c => rw [networkFirst_fail_hit s net req c hn hc]
      | none =>
        by_cases hm : req.mode = "navigate"
        · cases ho : cachesMatch s OFFLINE_URL with
          | some page =>
            rw [networkFirst_fail_nav_offline s net req page hn hc hm ho]
          | none =>
            rw [networkFirst_fail_nav_nooffline s net req hn hc hm ho]
        · rw [networkFirst_fail_nonnav s net req hn hc hm]
  · cases hn : net req.url with
    | none => rw [swr_state_fail s net req hn, getCache_cachesOpen]
    | some r =>
      cases hok : r.ok with
      | true =>
        rw [swr_state_ok s net req r hn hok]
        exact getCache_storagePut_open_ne s req.url r name h
      | false => rw [swr_state_notok s net req r hn hok, getCache_cachesOpen]

/-- C9 witness: the amended statement evaluated on a storage with a
superseded generation, for each strategy in its writing branch. -/
theorem write_scope_amended_witness :
    ("hadiye-v0.9.0" : String) ≠ CACHE_NAME ∧
    getCache (cacheFirst strayEntryState netOk dataReq).state "hadiye-v0.9.0"
      = getCache strayEntryState "hadiye-v0.9.0" ∧
    getCache (networkFirst strayEntryState netOk dataReq).state "hadiye-v0.9.0"
      = getCache strayEntryState "hadiye-v0.9.0" ∧
    getCache (staleWhileRevalidate strayEntryState netOk dataReq).state
        "hadiye-v0.9.0"
      = getCache strayEntryState "hadiye-v0.9.0" := by
  have h := write_scope_amended strayEntryState netOk dataReq "hadiye-v0.9.0"
    (by decide)
  exact ⟨by decide, h.1, h.2.1, h.2.2⟩

/-- C10: revalidation failure leaves the cache unchanged.  For every
Stale-While-Revalidate request whose background fetch fails at the
transport level or completes with a non-successful status, the contents
of every generation — in particular the entry for the request — are
exactly what they were before. -/
theorem swr_revalidation_frame (s : CacheStorage) (net : Network)
    (req : Request) (name : String)
    (h : net req.url = none ∨ ∃ r, net req.url = some r ∧ r.ok = false) :
    getCache (staleWhileRevalidate s net req).state name = getCache s name := by
  rcases h with h | ⟨r, hn, hok⟩
  · rw [swr_state_fail s net req h, getCache_cachesOpen]
  · rw [swr_state_notok s net req r hn hok, getCache_cachesOpen]

/-- C10 witness: a 500-answering revalidation leaves the cached script
entry untouched. -/
theorem swr_revalidation_frame_witness :
    (net500 jsReq.url = none ∨
      ∃ r, net500 jsReq.url = some r ∧ r.ok = false) ∧
    getCache (staleWhileRevalidate cachedJsState net500 jsReq).state CACHE_NAME
      = getCache cachedJsState CACHE_NAME := by
  have hh : net500 jsReq.url = none ∨
      ∃ r, net500 jsReq.url = some r ∧ r.ok = false :=
    Or.inr ⟨{ status := 500, body := "server error" }, rfl, by decide⟩
  exact ⟨hh, swr_revalidation_frame cachedJsState net500 jsReq CACHE_NAME hh⟩
